import Mathlib

/-!
Verification of the Bubble Shooter game simulation (`src/game.js`).

The embedding translates the simulation core of `game.js` into Lean:
the staggered hex grid (`initGrid`, `neighbors`), placement
(`addBubbleAt`), the two connectivity traversals (`clusterCheck`,
`floatingCheck`), row pressure (`pushRow`) and the per-frame `update`
driven by `gameLoop`.

Conventions of the embedding:
* JavaScript numbers are embedded as exact rationals; the arithmetic the
  claims depend on (integration, clamping, rounding, row heights) is
  closed over the rationals.
* Colors are palette codes, embedded as `Nat`.
* The collision test `Math.hypot(dx, dy) < 2·r − 0.5` is embedded in the
  equivalent squared form `dx² + dy² < (2·r − 0.5)²` (both sides of the
  source comparison are nonnegative, so squaring is an equivalence).
* The placement target of a bubble-to-bubble collision is
  `b + 2r·(cos θ, sin θ)` with `θ = atan2(dy, dx)`: a transcendental
  float computation with no exact rational counterpart.  It is taken as
  an explicit parameter `collide` of the frame update; no claim below
  depends on its value.
* `Math.random()`-driven color picks are taken as explicit color-stream
  parameters.
* Purely visual, wall-clock-driven entities (pop animations, particle
  sprays, the projectile trail, falling-bubble kinematics) are not part
  of the embedded simulation state; `floatingCheck` still returns the
  list of bubbles it detaches (the ones `game.js` converts to falling
  bubbles).
-/

namespace BubbleShooter

-- Numeric constants of `CONFIG` in `game.js` (the fields the simulation
-- core reads).
namespace CONFIG

def bubbleRadius : ℚ := 16

def rowCount : Nat := 8

def launchSpeed : ℚ := 720

def friction : ℚ := 988 / 1000

def minCluster : Nat := 3

def spawnRowInterval : ℚ := 14000

def maxBounce : Nat := 8

def rowHeightFactor : ℚ := 162 / 100

def aimDamping : ℚ := 18 / 100

end CONFIG

/-- `r * CONFIG.rowHeightFactor`, the vertical row spacing used by
`initGrid`, `addBubbleAt` and `pushRow` in `game.js`. -/
def rowHeight : ℚ := CONFIG.bubbleRadius * CONFIG.rowHeightFactor

/-- `Math.floor(canvas.width / (r * 2))`: bubbles per (even) row. -/
def perRow (width : ℚ) : Int := Rat.floor (width / (CONFIG.bubbleRadius * 2))

/-- `Math.round` of JavaScript: round half toward positive infinity. -/
def jsRound (q : ℚ) : Int := Rat.floor (q + 1 / 2)

/-- A grid cell occupant: `{ row, c, x, y, color, removing }` of
`game.js`. -/
structure Bubble where
  row : Nat
  c : Int
  x : ℚ
  y : ℚ
  color : Nat
  removing : Bool
deriving DecidableEq

/-- The `row + ':' + c` string key used by both DFS visited sets. -/
abbrev Key := Nat × Int

def keyOf (b : Bubble) : Key := (b.row, b.c)

/-- `state.grid`: an ordered list of rows. -/
abbrev Grid := List (List Bubble)

/-- All occupied cells, in row-major order. -/
def cells (g : Grid) : List Bubble := g.flatten

def totalCells (g : Grid) : Nat := (cells g).length

def keysFinset (g : Grid) : Finset Key := ((cells g).map keyOf).toFinset

/-- `state.grid[0] || []`. -/
def row0 (g : Grid) : List Bubble := g.headD []

def row0Keys (g : Grid) : Finset Key := ((row0 g).map keyOf).toFinset

/-- `arr.find(x => x.c === nc)`. -/
def findByCol (arr : List Bubble) (nc : Int) : Option Bubble :=
  arr.find? (fun x => x.c == nc)

/-- Even-row neighbor offsets `[[0,-1],[0,1],[-1,0],[-1,1],[1,0],[1,1]]`. -/
def deltasEven : List (Int × Int) :=
  [(0, -1), (0, 1), (-1, 0), (-1, 1), (1, 0), (1, 1)]

/-- Odd-row neighbor offsets `[[0,-1],[0,1],[-1,-1],[-1,0],[1,-1],[1,0]]`. -/
def deltasOdd : List (Int × Int) :=
  [(0, -1), (0, 1), (-1, -1), (-1, 0), (1, -1), (1, 0)]

/-- `neighbors(b)` of `game.js`: parity-dependent offsets, out-of-range
rows skipped, first bubble of matching column per row. -/
def neighbors (g : Grid) (b : Bubble) : List Bubble :=
  if b.row < g.length then
    let deltas := if b.row % 2 = 0 then deltasEven else deltasOdd
    deltas.filterMap (fun d =>
      let nr : Int := (b.row : Int) + d.1
      let nc : Int := b.c + d.2
      if nr < 0 ∨ (g.length : Int) ≤ nr then none
      else findByCol (g.getD nr.toNat []) nc)
  else []

/-- The occupant of a `(row, column)` slot: first bubble of that column
in that row, if the row exists. -/
def cellAt (g : Grid) (k : Key) : Option Bubble := findByCol (g.getD k.1 []) k.2

section Closure

variable {α : Type}

/-- One expansion step of a DFS visited set: add the successors of every
visited node. -/
def closureStep [DecidableEq α] (f : α → List α) (s : Finset α) : Finset α :=
  s ∪ s.biUnion (fun k => (f k).toFinset)

/-- Expand a visited set until it is closed under `f` (the fuel bounds
the number of strictly growing steps).  This computes the visited set of
the recursive DFS closures in `game.js` (`clusterCheck` / the floating
check), which only ever use that set, never the visit order. -/
def closureIter [DecidableEq α] (f : α → List α) : Nat → Finset α → Finset α
  | 0, s => s
  | n + 1, s => if closureStep f s = s then s else closureIter f n (closureStep f s)

/-- A visited set closed under successor expansion. -/
def IsClosed (f : α → List α) (s : Finset α) : Prop :=
  ∀ k ∈ s, ∀ k' ∈ f k, k' ∈ s

/-- `k` is reachable from the start set along `f`-successor links. -/
def ReachesVia (f : α → List α) (s : Finset α) (k : α) : Prop :=
  ∃ k₀ ∈ s, Relation.ReflTransGen (fun a b => b ∈ f a) k₀ k

end Closure

/-- Successor keys of the floating-check DFS: the keys of `neighbors(b)`
for the occupant `b` of the key's slot. -/
def floatStep (g : Grid) (k : Key) : List Key :=
  match cellAt g k with
  | none => []
  | some b => (neighbors g b).map keyOf

/-- Successor keys of the `clusterCheck` DFS: same-colored neighbors,
expanded only from same-colored cells (`if (b.color !== targetColor)
return` guards recursion in `game.js`). -/
def clusterStep (g : Grid) (tc : Nat) (k : Key) : List Key :=
  match cellAt g k with
  | none => []
  | some b =>
    if b.color = tc then ((neighbors g b).filter (fun n => n.color == tc)).map keyOf
    else []

/-- The `connected` key set of `floatingCheck`: closure of the row-0 keys
under neighbor links. -/
def connectedKeys (g : Grid) : Finset Key :=
  closureIter (floatStep g) (totalCells g) (row0Keys g)

/-- The `cluster` key set of `clusterCheck`: closure of the origin's key
under same-color neighbor links. -/
def clusterKeys (g : Grid) (origin : Bubble) : Finset Key :=
  closureIter (clusterStep g origin.color) (totalCells g) {keyOf origin}

/-- `cluster.forEach(b => b.removing = true)`: set the removal flag on
every cell whose key is in the marked set. -/
def markRemoving (g : Grid) (ks : Finset Key) : Grid :=
  g.map (fun row => row.map (fun b => if keyOf b ∈ ks then { b with removing := true } else b))

/-- `clusterCheck(origin)` of `game.js`: collect the same-color component
of the origin; if it has at least `minCluster` members, flag every member
for removal and add `10` points per member. -/
def clusterCheck (g : Grid) (score : Nat) (origin : Bubble) : Grid × Nat :=
  let cluster := clusterKeys g origin
  if CONFIG.minCluster ≤ cluster.card then
    (markRemoving g cluster, score + cluster.card * 10)
  else (g, score)

/-- The keep test of the floating check: a cell survives when its key is
in the `connected` set or it is already flagged (`!connected.has(key) &&
!b.removing` is the removal condition in `game.js`). -/
def floatKeep (connected : Finset Key) (b : Bubble) : Bool :=
  decide (keyOf b ∈ connected) || b.removing

/-- `floatingCheck()` of `game.js`: build the `connected` set from row 0,
then splice out (and return, in splice order — rows forward, each row
scanned from its end) every unflagged disconnected bubble, scoring `20`
points apiece. -/
def floatingCheck (g : Grid) (score : Nat) : Grid × Nat × List Bubble :=
  let connected := connectedKeys g
  let dropped :=
    (g.map (fun row => (row.filter (fun b => !(floatKeep connected b))).reverse)).flatten
  (g.map (fun row => row.filter (floatKeep connected)), score + 20 * dropped.length, dropped)

/-- `Math.max(0, Math.round((targetY - r) / rowHeight))`. -/
def targetRow (ty : ℚ) : Nat :=
  (max 0 (jsRound ((ty - CONFIG.bubbleRadius) / rowHeight))).toNat

/-- The per-row horizontal offset `(row % 2) * r`. -/
def rowOffset (row : Nat) : ℚ :=
  (if row % 2 = 1 then 1 else 0) * CONFIG.bubbleRadius

/-- `Math.max(0, Math.min(perRow - 1, Math.round((targetX - offset - r) / (r * 2))))`. -/
def targetCol (width : ℚ) (row : Nat) (tx : ℚ) : Int :=
  max 0 (min (perRow width - 1)
    (jsRound ((tx - rowOffset row - CONFIG.bubbleRadius) / (CONFIG.bubbleRadius * 2))))

/-- `while (state.grid.length <= row) state.grid.push([])`. -/
def growTo (g : Grid) (row : Nat) : Grid := g ++ List.replicate (row + 1 - g.length) []

/-- `addBubbleAt(projectile, targetX, targetY)` of `game.js`: snap the
target to a slot, grow the grid if needed, and—only if the slot is
free—insert the bubble and run the cluster pop check followed by the
floating check. -/
def addBubbleAt (g : Grid) (score : Nat) (width : ℚ) (pcolor : Nat) (tx ty : ℚ) :
    Grid × Nat :=
  let row := targetRow ty
  let col := targetCol width row tx
  let g1 := growTo g row
  let rowArr := g1.getD row []
  match findByCol rowArr col with
  | some _ => (g1, score)
  | none =>
    let bubble : Bubble :=
      ⟨row, col, CONFIG.bubbleRadius + col * CONFIG.bubbleRadius * 2 + rowOffset row,
        CONFIG.bubbleRadius + row * rowHeight, pcolor, false⟩
    let g2 := g1.set row (rowArr ++ [bubble])
    let cc := clusterCheck g2 score bubble
    let fc := floatingCheck cc.1 cc.2
    (fc.1, fc.2.1)

/-- `pushRow()` of `game.js`: shift every bubble down one row height,
prepend a full fresh row, and renumber every bubble's `row` field to its
row's new index.  `newColor c` is the color `pickColor()` returns for the
`c`-th new bubble. -/
def pushRow (g : Grid) (width : ℚ) (newColor : Nat → Nat) : Grid :=
  let g1 := g.map (fun row => row.map (fun b => { b with y := b.y + rowHeight }))
  let newRow : List Bubble :=
    (List.range (perRow width).toNat).map (fun (c : Nat) =>
      ⟨0, (c : Int), CONFIG.bubbleRadius + (c : ℚ) * CONFIG.bubbleRadius * 2,
        CONFIG.bubbleRadius, newColor c, false⟩)
  let g2 := newRow :: g1
  (List.range g2.length).map (fun i => (g2.getD i []).map (fun b => { b with row := i }))

/-- `initGrid()` of `game.js` with `color row c` the color drawn for the
cell; odd rows are one bubble short and offset by a radius. -/
def initGrid (width : ℚ) (color : Nat → Nat → Nat) : Grid :=
  (List.range CONFIG.rowCount).map (fun row =>
    let count := (perRow width - (if row % 2 = 1 then 1 else 0)).toNat
    (List.range count).map (fun (c : Nat) =>
      ⟨row, (c : Int), CONFIG.bubbleRadius + (c : ℚ) * CONFIG.bubbleRadius * 2 + rowOffset row,
        CONFIG.bubbleRadius + (row : ℚ) * rowHeight, color row c, false⟩))

/-- An in-flight shot of `game.js`. -/
structure Projectile where
  x : ℚ
  y : ℚ
  vx : ℚ
  vy : ℚ
  color : Nat
  active : Bool
  bounces : Nat
deriving DecidableEq

/-- The embedded slice of the mutable `state` of `game.js` (the
simulation core: grid, shots, score, terminal flag, row-pressure timer,
aim easing, loaded color). -/
structure GameState where
  grid : Grid
  projectiles : List Projectile
  score : Nat
  shots : Nat
  gameOver : Bool
  spawnTimer : ℚ
  angle : ℚ
  targetAngle : ℚ
  nextColor : Option Nat
deriving DecidableEq

/-- First grid bubble (row-major, matching the nested `for`/`break`) that
overlaps position `(px, py)`: squared form of
`Math.hypot(dx, dy) < r * 2 - 0.5`. -/
def collideFirst (g : Grid) (px py : ℚ) : Option Bubble :=
  (cells g).find? (fun b =>
    (px - b.x) ^ 2 + (py - b.y) ^ 2 < (CONFIG.bubbleRadius * 2 - 1 / 2) ^ 2)

/-- One frame of the projectile body of `update` for an active
projectile: integrate, apply friction, bounce off walls, deactivate past
the bounce limit, then ceiling placement / bubble collision / floor loss.
`collide dx dy bx by` abstracts the transcendental placement target
`(bx + cos(atan2(dy,dx))·2r, by + sin(atan2(dy,dx))·2r)`. -/
def stepActiveProj (width height : ℚ) (dt : ℚ) (collide : ℚ → ℚ → ℚ → ℚ → ℚ × ℚ)
    (g : Grid) (score : Nat) (p : Projectile) : Projectile × Grid × Nat :=
  let x := p.x + p.vx * dt
  let y := p.y + p.vy * dt
  let vx := p.vx * CONFIG.friction
  let vy := p.vy * CONFIG.friction
  let w : ℚ × ℚ × Nat :=
    if x < CONFIG.bubbleRadius then (CONFIG.bubbleRadius, |vx|, p.bounces + 1)
    else if width - CONFIG.bubbleRadius < x then (width - CONFIG.bubbleRadius, -|vx|, p.bounces + 1)
    else (x, vx, p.bounces)
  let x := w.1
  let vx := w.2.1
  let bounces := w.2.2
  let active := if CONFIG.maxBounce < bounces then false else p.active
  if y < CONFIG.bubbleRadius then
    let r := addBubbleAt g score width p.color x CONFIG.bubbleRadius
    (⟨x, y, vx, vy, p.color, false, bounces⟩, r.1, r.2)
  else
    match collideFirst g x y with
    | some b =>
      let t := collide (x - b.x) (y - b.y) b.x b.y
      let r := addBubbleAt g score width p.color t.1 t.2
      (⟨x, y, vx, vy, p.color, false, bounces⟩, r.1, r.2)
    | none =>
      let active := if height - 12 < y then false else active
      (⟨x, y, vx, vy, p.color, active, bounces⟩, g, score)

/-- `for (const p of state.projectiles) { if (!p.active) continue; ... }`:
process the projectiles in order, threading the grid and score through
each placement. -/
def moveProjectiles (width height : ℚ) (dt : ℚ) (collide : ℚ → ℚ → ℚ → ℚ → ℚ × ℚ) :
    List Projectile → Grid → Nat → List Projectile × Grid × Nat
  | [], g, score => ([], g, score)
  | p :: rest, g, score =>
    if p.active then
      let r := stepActiveProj width height dt collide g score p
      let rest' := moveProjectiles width height dt collide rest r.2.1 r.2.2
      (r.1 :: rest'.1, rest'.2)
    else
      let rest' := moveProjectiles width height dt collide rest g score
      (p :: rest'.1, rest'.2)

/-- The terminal-condition phase of `update`: the win check (`every row
empty`, guarded by the running flag) followed by the lose check (any
bubble past the danger line `height - 100`, guarded by the flag the win
check may just have set).  Returns the new `gameOver` flag and the win
and lose signals (the `endGame` calls) of this frame. -/
def winLoseFlags (height : ℚ) (gameOver : Bool) (g : Grid) : Bool × Bool × Bool :=
  let wv : Bool × Bool :=
    if gameOver = false ∧ g.all (fun r => r.isEmpty) then (true, true)
    else (gameOver, false)
  let lv : Bool × Bool :=
    if wv.1 = false ∧ (cells g).any (fun b => height - 100 < b.y) then (true, true)
    else (wv.1, false)
  (lv.1, wv.2, lv.2)

/-- `update(dt)` of `game.js` restricted to the embedded simulation
state.  Returns the new state together with the win and lose signals
(the `endGame(true)` / `endGame(false)` calls of this frame). -/
def update (width height : ℚ) (dt : ℚ) (collide : ℚ → ℚ → ℚ → ℚ → ℚ × ℚ)
    (newColor : Nat → Nat) (s : GameState) : GameState × Bool × Bool :=
  let angle := s.angle + (s.targetAngle - s.angle) * CONFIG.aimDamping
  let mp := moveProjectiles width height dt collide s.projectiles s.grid s.score
  let ps := mp.1.filter (fun p => p.active)
  let g := mp.2.1
  let score := mp.2.2
  let spawnTimer := s.spawnTimer + dt * 1000
  let rp : Grid × ℚ :=
    if CONFIG.spawnRowInterval ≤ spawnTimer then (pushRow g width newColor, 0)
    else (g, spawnTimer)
  let flags := winLoseFlags height s.gameOver rp.1
  ({ s with
      grid := rp.1
      projectiles := ps
      score := score
      spawnTimer := rp.2
      gameOver := flags.1
      angle := angle }, flags.2.1, flags.2.2)

/-- One `gameLoop` tick acting on the simulation state:
`if (!state.gameOver) update(dt)` (drawing has no simulation effect). -/
def gameFrame (width height : ℚ) (dt : ℚ) (collide : ℚ → ℚ → ℚ → ℚ → ℚ × ℚ)
    (newColor : Nat → Nat) (s : GameState) : GameState × Bool × Bool :=
  if s.gameOver then (s, false, false) else update width height dt collide newColor s

/-- `newProjectile()` of `game.js`: spawn a shot of the loaded color from
the shooter, reload with a fresh color, count the shot.  `(dirX, dirY)`
stands for `(cos angle, sin angle)`; `c1` is the `pickColor()` fallback
for an unset loaded color and `c2` the freshly picked reload. -/
def newProjectile (shooterX shooterY dirX dirY : ℚ) (c1 c2 : Nat) (s : GameState) :
    GameState :=
  let loaded := s.nextColor.getD c1
  let p : Projectile :=
    ⟨shooterX, shooterY, dirX * CONFIG.launchSpeed, dirY * CONFIG.launchSpeed, loaded, true, 0⟩
  { s with nextColor := some c2, projectiles := s.projectiles ++ [p], shots := s.shots + 1 }

/-- The canvas `click` handler: `if (state.gameOver || overlay…) return;
newProjectile()`. -/
def fireCommand (shooterX shooterY dirX dirY : ℚ) (c1 c2 : Nat) (s : GameState) :
    GameState :=
  if s.gameOver then s else newProjectile shooterX shooterY dirX dirY c1 c2 s

/-- `startGame()` of `game.js` on the embedded state: fresh grid, cleared
projectiles, zeroed score/shots/timer, running, fresh loaded color.  The
shooter's aim is not reset. -/
def startGame (width : ℚ) (gcolor : Nat → Nat → Nat) (c0 : Nat) (s : GameState) :
    GameState :=
  { grid := initGrid width gcolor
    projectiles := []
    score := 0
    shots := 0
    gameOver := false
    spawnTimer := 0
    angle := s.angle
    targetAngle := s.targetAngle
    nextColor := some c0 }

/-- Data-model invariant of `spec.md` §3: every bubble's stored `row`
matches the index of the row holding it. -/
def RowCoherent (g : Grid) : Prop :=
  ∀ i, (h : i < g.length) → ∀ b ∈ g[i], b.row = i

/-- Data-model invariant of `spec.md` §3: no two bubbles of a row share a
column. -/
def NodupCols (g : Grid) : Prop :=
  ∀ row ∈ g, (row.map Bubble.c).Nodup

/-- The grid invariant: row coherence plus column uniqueness. -/
def GridInv (g : Grid) : Prop := RowCoherent g ∧ NodupCols g

instance (g : Grid) : Decidable (RowCoherent g) := by
  unfold RowCoherent
  infer_instance

instance (g : Grid) : Decidable (NodupCols g) := by
  unfold NodupCols
  infer_instance

instance (g : Grid) : Decidable (GridInv g) := by
  unfold GridInv
  infer_instance

/-- One neighbor hop. -/
def Step (g : Grid) (a b : Bubble) : Prop := b ∈ neighbors g a

/-- A bubble is anchored: some row-0 bubble reaches it via repeated
`neighbors` links. -/
def ReachableFromTop (g : Grid) (b : Bubble) : Prop :=
  ∃ b₀ ∈ row0 g, Relation.ReflTransGen (Step g) b₀ b

/-- One neighbor hop between two bubbles of the target color. -/
def ColorStep (g : Grid) (tc : Nat) (a b : Bubble) : Prop :=
  a.color = tc ∧ b ∈ neighbors g a ∧ b.color = tc

/-- Membership in the connected same-color component of `origin`. -/
def InColorComponent (g : Grid) (origin b : Bubble) : Prop :=
  Relation.ReflTransGen (ColorStep g origin.color) origin b

-- ===== concrete instances used by witnesses and counterexamples =====

-- C1: a 480-wide board whose top row holds two adjacent color-0 bubbles.
def gridC1 : Grid := [[⟨0, 0, 16, 16, 0, false⟩, ⟨0, 1, 48, 16, 0, false⟩]]

-- C1: the cell (0,0) as it stands after the pop flags it.
def bubbleC1 : Bubble := ⟨0, 0, 16, 16, 0, true⟩

-- C2: a board with one bubble at slot (0,2), the slot targeted by (80,16).
def gridC2 : Grid := [[⟨0, 2, 80, 16, 3, false⟩]]

-- C3: three adjacent color-7 bubbles in the top row.
def gridC3 : Grid :=
  [[⟨0, 0, 16, 16, 7, false⟩, ⟨0, 1, 48, 16, 7, false⟩, ⟨0, 2, 80, 16, 7, false⟩]]

-- C3: the member of `gridC3` taken as the freshly placed origin.
def originC3 : Bubble := ⟨0, 2, 80, 16, 7, false⟩

-- C8: an anchored bubble at (0,0), an empty row 1, and a floating bubble
-- at (2,1) that the first floating check must detach.
def gridC8 : Grid := [[⟨0, 0, 16, 16, 0, false⟩], [], [⟨2, 1, 64, 67, 1, false⟩]]

-- C5: a coherent 2-row grid with one bubble per row.
def gridC5 : Grid := [[⟨0, 0, 16, 16, 2, false⟩], [⟨1, 0, 32, 42, 3, false⟩]]

-- C6: two rows; (0,0) has neighbors (0,1), (1,0) and (1,1).
def gridC6 : Grid :=
  [[⟨0, 0, 16, 16, 4, false⟩, ⟨0, 1, 48, 16, 5, false⟩],
   [⟨1, 0, 32, 42, 6, false⟩, ⟨1, 1, 64, 42, 4, true⟩]]

-- C6: the probe bubble for the neighbor specification.
def bubbleC6 : Bubble := ⟨0, 0, 16, 16, 4, false⟩

-- C9: a pop origin with a 3-member component plus a spectator bubble.
def gridC9 : Grid :=
  [[⟨0, 0, 16, 16, 1, false⟩, ⟨0, 1, 48, 16, 1, false⟩, ⟨0, 2, 80, 16, 1, false⟩,
    ⟨0, 4, 144, 16, 2, false⟩]]

-- C9: the member of `gridC9` taken as the pop origin.
def originC9 : Bubble := ⟨0, 1, 48, 16, 1, false⟩

-- A concrete stand-in for the transcendental collision placement target
-- (its value is irrelevant to every claim below).
def collideOracle : ℚ → ℚ → ℚ → ℚ → ℚ × ℚ := fun _ _ bx bty => (bx, bty)

-- C4: a projectile sitting near the top-left corner, one bounce below the
-- limit, heading up-left fast enough to cross the wall and the ceiling in
-- one 0.1 s frame.
def projC4 : Projectile := ⟨20, 20, -300, -300, 1, true, 8⟩

-- C4: the frame state carrying `projC4` over a one-bubble grid.
def stateC4 : GameState :=
  { grid := [[⟨0, 5, 176, 16, 0, false⟩]]
    projectiles := [projC4]
    score := 0
    shots := 1
    gameOver := false
    spawnTimer := 0
    angle := -1
    targetAngle := -1
    nextColor := some 2 }

-- C7: a running state whose grid rows are all empty.
def stateC7 : GameState :=
  { grid := [[], []]
    projectiles := []
    score := 5
    shots := 3
    gameOver := false
    spawnTimer := 0
    angle := -1
    targetAngle := -1
    nextColor := some 0 }

-- ===== theorems =====

section ClosureLemmas

variable {α : Type}

theorem subset_closureStep [DecidableEq α] (f : α → List α) (s : Finset α) :
    s ⊆ closureStep f s :=
  Finset.subset_union_left

theorem subset_closureIter [DecidableEq α] (f : α → List α) (n : Nat) (s : Finset α) :
    s ⊆ closureIter f n s := by
  induction n generalizing s with
  | zero => exact fun _ h => h
  | succ n ih =>
    by_cases hfix : closureStep f s = s
    · simp [closureIter, hfix]
    · simp only [closureIter, hfix, if_false]
      exact (subset_closureStep f s).trans (ih (closureStep f s))

theorem closureIter_sound [DecidableEq α] (f : α → List α) (R : α → Prop) (n : Nat)
    (s : Finset α)
    (hs : ∀ k ∈ s, R k) (hstep : ∀ k, R k → ∀ k' ∈ f k, R k') :
    ∀ k ∈ closureIter f n s, R k := by
  induction n generalizing s with
  | zero => exact hs
  | succ n ih =>
    by_cases hfix : closureStep f s = s
    · simpa [closureIter, hfix] using hs
    · simp only [closureIter, hfix, if_false]
      refine ih (closureStep f s) ?_
      intro k hk
      rcases Finset.mem_union.mp hk with hk | hk
      · exact hs k hk
      · rcases Finset.mem_biUnion.mp hk with ⟨k₀, hk₀, hk⟩
        exact hstep k₀ (hs k₀ hk₀) k (List.mem_toFinset.mp hk)

theorem closureStep_eq_iff [DecidableEq α] (f : α → List α) (s : Finset α) :
    closureStep f s = s ↔ IsClosed f s := by
  constructor
  · intro h k hk k' hk'
    have : k' ∈ closureStep f s := by
      refine Finset.mem_union.mpr (Or.inr ?_)
      exact Finset.mem_biUnion.mpr ⟨k, hk, List.mem_toFinset.mpr hk'⟩
    simpa [h] using this
  · intro h
    apply Finset.Subset.antisymm
    · intro k hk
      rcases Finset.mem_union.mp hk with hk | hk
      · exact hk
      · rcases Finset.mem_biUnion.mp hk with ⟨k₀, hk₀, hk⟩
        exact h k₀ hk₀ k (List.mem_toFinset.mp hk)
    · exact subset_closureStep f s

theorem closureStep_subset_univ [DecidableEq α] (f : α → List α) (s univ : Finset α)
    (hf : ∀ k, ∀ k' ∈ f k, k' ∈ univ) (hs : s ⊆ univ) :
    closureStep f s ⊆ univ := by
  intro k hk
  rcases Finset.mem_union.mp hk with hk | hk
  · exact hs hk
  · rcases Finset.mem_biUnion.mp hk with ⟨k₀, _, hk⟩
    exact hf k₀ k (List.mem_toFinset.mp hk)

theorem closureIter_isClosed [DecidableEq α] (f : α → List α) (univ : Finset α)
    (hf : ∀ k, ∀ k' ∈ f k, k' ∈ univ) (n : Nat) (s : Finset α)
    (hs : s ⊆ univ) (hn : univ.card ≤ n + s.card) :
    IsClosed f (closureIter f n s) := by
  induction n generalizing s with
  | zero =>
    have hcard : univ.card ≤ s.card := by simpa using hn
    have : s = univ := Finset.eq_of_subset_of_card_le hs hcard
    intro k hk k' hk'
    simp only [closureIter] at hk ⊢
    rw [this]
    exact hf k k' hk'
  | succ n ih =>
    by_cases hfix : closureStep f s = s
    · simp only [closureIter, hfix, if_true]
      exact (closureStep_eq_iff f s).mp hfix
    · simp only [closureIter, hfix, if_false]
      have hsub : s ⊆ closureStep f s := subset_closureStep f s
      have hne : s ≠ closureStep f s := fun h => hfix h.symm
      have hlt : s.card < (closureStep f s).card :=
        Finset.card_lt_card (Finset.ssubset_iff_subset_ne.mpr ⟨hsub, hne⟩)
      refine ih (closureStep f s) (closureStep_subset_univ f s univ hf hs) ?_
      omega

theorem mem_of_reaches_of_isClosed (f : α → List α) (t : Finset α)
    (hcl : IsClosed f t) {k₀ k : α}
    (hk₀ : k₀ ∈ t) (h : Relation.ReflTransGen (fun a b => b ∈ f a) k₀ k) :
    k ∈ t := by
  induction h with
  | refl => exact hk₀
  | tail _ hstep ih => exact hcl _ ih _ hstep

theorem mem_closureIter_iff [DecidableEq α] (f : α → List α) (univ : Finset α)
    (hf : ∀ k, ∀ k' ∈ f k, k' ∈ univ) (n : Nat) (s : Finset α)
    (hs : s ⊆ univ) (hn : univ.card ≤ n + s.card) (k : α) :
    k ∈ closureIter f n s ↔ ReachesVia f s k := by
  constructor
  · intro hk
    refine closureIter_sound f (ReachesVia f s) n s ?_ ?_ k hk
    · exact fun k hk => ⟨k, hk, Relation.ReflTransGen.refl⟩
    · rintro a ⟨k₀, hk₀, hpath⟩ k' hk'
      exact ⟨k₀, hk₀, hpath.tail hk'⟩
  · rintro ⟨k₀, hk₀, hpath⟩
    exact mem_of_reaches_of_isClosed f _ (closureIter_isClosed f univ hf n s hs hn)
      (subset_closureIter f n s hk₀) hpath

end ClosureLemmas

theorem findByCol_eq_some {arr : List Bubble} {nc : Int} {b : Bubble}
    (h : findByCol arr nc = some b) : b ∈ arr ∧ b.c = nc := by
  refine ⟨List.mem_of_find?_eq_some h, ?_⟩
  have := List.find?_some h
  simpa using this

theorem findByCol_eq_some_of_nodup {arr : List Bubble} {b : Bubble}
    (hnd : (arr.map Bubble.c).Nodup) (hb : b ∈ arr) : findByCol arr b.c = some b := by
  induction arr with
  | nil => cases hb
  | cons a l ih =>
    simp only [List.map_cons, List.nodup_cons] at hnd
    rcases List.mem_cons.mp hb with rfl | hb'
    · simp [findByCol]
    · have hne : a.c ≠ b.c := by
        intro h
        apply hnd.1
        rw [h]
        exact List.mem_map_of_mem Bubble.c hb'
      have hfalse : (a.c == b.c) = false := by simpa using hne
      simp only [findByCol, List.find?_cons, hfalse]
      exact ih hnd.2 hb'

theorem mem_cells_iff {g : Grid} {b : Bubble} :
    b ∈ cells g ↔ ∃ i, ∃ h : i < g.length, b ∈ g[i] := by
  simp only [cells, List.mem_flatten]
  constructor
  · rintro ⟨row, hrow, hb⟩
    rcases List.mem_iff_getElem.mp hrow with ⟨i, hi, rfl⟩
    exact ⟨i, hi, hb⟩
  · rintro ⟨i, hi, hb⟩
    exact ⟨g[i], List.getElem_mem hi, hb⟩

theorem mem_cells_of_mem_row {g : Grid} {i : Nat} (h : i < g.length) {b : Bubble}
    (hb : b ∈ g[i]) : b ∈ cells g :=
  mem_cells_iff.mpr ⟨i, h, hb⟩

theorem grid_getD_eq_getElem {g : Grid} {i : Nat} (h : i < g.length) :
    g.getD i [] = g[i] := by
  simp [List.getD_eq_getElem?_getD, List.getElem?_eq_getElem h]

theorem grid_getD_eq_nil {g : Grid} {i : Nat} (h : g.length ≤ i) :
    g.getD i [] = [] := by
  simp [List.getD_eq_getElem?_getD, List.getElem?_eq_none h]

theorem keyOf_injOn {g : Grid} (hinv : GridInv g) {a b : Bubble}
    (ha : a ∈ cells g) (hb : b ∈ cells g) (hk : keyOf a = keyOf b) : a = b := by
  rcases mem_cells_iff.mp ha with ⟨i, hi, hai⟩
  rcases mem_cells_iff.mp hb with ⟨j, hj, hbj⟩
  have hra : a.row = i := hinv.1 i hi a hai
  have hrb : b.row = j := hinv.1 j hj b hbj
  have hrow : a.row = b.row := congrArg Prod.fst hk
  have hcol : a.c = b.c := congrArg Prod.snd hk
  have hij : i = j := by omega
  subst hij
  have hnd : ((g[i]).map Bubble.c).Nodup := hinv.2 g[i] (List.getElem_mem hi)
  have h1 : findByCol g[i] a.c = some a := findByCol_eq_some_of_nodup hnd hai
  have h2 : findByCol g[i] b.c = some b := findByCol_eq_some_of_nodup hnd hbj
  rw [hcol] at h1
  rw [h1] at h2
  exact Option.some_injective _ h2

theorem cellAt_keyOf {g : Grid} (hinv : GridInv g) {b : Bubble} (hb : b ∈ cells g) :
    cellAt g (keyOf b) = some b := by
  rcases mem_cells_iff.mp hb with ⟨i, hi, hbi⟩
  have hr : b.row = i := hinv.1 i hi b hbi
  have hnd : ((g[i]).map Bubble.c).Nodup := hinv.2 g[i] (List.getElem_mem hi)
  simp only [cellAt, keyOf, hr]
  rw [grid_getD_eq_getElem hi]
  exact findByCol_eq_some_of_nodup hnd hbi

theorem mem_neighbors_iff {g : Grid} {b n : Bubble} :
    n ∈ neighbors g b ↔
      b.row < g.length ∧ ∃ d ∈ (if b.row % 2 = 0 then deltasEven else deltasOdd),
        ¬((b.row : Int) + d.1 < 0 ∨ (g.length : Int) ≤ (b.row : Int) + d.1) ∧
        findByCol (g.getD ((b.row : Int) + d.1).toNat []) (b.c + d.2) = some n := by
  unfold neighbors
  by_cases hrow : b.row < g.length
  · simp only [hrow, if_true, List.mem_filterMap, true_and]
    constructor
    · rintro ⟨d, hd, hsome⟩
      by_cases hrange : (b.row : Int) + d.1 < 0 ∨ (g.length : Int) ≤ (b.row : Int) + d.1
      · rw [if_pos hrange] at hsome
        cases hsome
      · rw [if_neg hrange] at hsome
        exact ⟨d, hd, hrange, hsome⟩
    · rintro ⟨d, hd, hrange, hfind⟩
      exact ⟨d, hd, by rw [if_neg hrange]; exact hfind⟩
  · simp [hrow]

theorem mem_neighbors_mem_row {g : Grid} {b n : Bubble} (hn : n ∈ neighbors g b) :
    ∃ i, ∃ h : i < g.length, n ∈ g[i] := by
  rcases mem_neighbors_iff.mp hn with ⟨hrow, d, hd, hrange, hfind⟩
  push_neg at hrange
  have hlt : ((b.row : Int) + d.1).toNat < g.length := by omega
  refine ⟨((b.row : Int) + d.1).toNat, hlt, ?_⟩
  rw [grid_getD_eq_getElem hlt] at hfind
  exact (findByCol_eq_some hfind).1

theorem mem_neighbors_mem_cells {g : Grid} {b n : Bubble} (hn : n ∈ neighbors g b) :
    n ∈ cells g := by
  rcases mem_neighbors_mem_row hn with ⟨i, hi, hni⟩
  exact mem_cells_of_mem_row hi hni

theorem neighbors_row_lt {g : Grid} (hcoh : RowCoherent g) {b n : Bubble}
    (hn : n ∈ neighbors g b) : n.row < g.length := by
  rcases mem_neighbors_mem_row hn with ⟨i, hi, hni⟩
  rw [hcoh i hi n hni]
  exact hi

theorem neighbors_key_ne {g : Grid} (hcoh : RowCoherent g) {b n : Bubble}
    (hn : n ∈ neighbors g b) : keyOf n ≠ keyOf b := by
  rcases mem_neighbors_iff.mp hn with ⟨hrow, d, hd, hrange, hfind⟩
  push_neg at hrange
  have hlt : ((b.row : Int) + d.1).toNat < g.length := by omega
  rw [grid_getD_eq_getElem hlt] at hfind
  have hmem := (findByCol_eq_some hfind).1
  have hc : n.c = b.c + d.2 := (findByCol_eq_some hfind).2
  have hr : n.row = ((b.row : Int) + d.1).toNat := hcoh _ hlt n hmem
  intro hkey
  have hrown : n.row = b.row := congrArg Prod.fst hkey
  have hcoln : n.c = b.c := congrArg Prod.snd hkey
  have hd' : (d.1 = 0 ∧ (d.2 = -1 ∨ d.2 = 1)) ∨ d.1 = -1 ∨ d.1 = 1 := by
    by_cases hpar : b.row % 2 = 0
    · rw [if_pos hpar] at hd
      simp only [deltasEven, List.mem_cons, List.not_mem_nil, or_false] at hd
      rcases hd with rfl | rfl | rfl | rfl | rfl | rfl <;> simp
    · rw [if_neg hpar] at hd
      simp only [deltasOdd, List.mem_cons, List.not_mem_nil, or_false] at hd
      rcases hd with rfl | rfl | rfl | rfl | rfl | rfl <;> simp
  rcases hd' with ⟨h1, h2⟩ | h1 | h1
  · rcases h2 with h2 | h2 <;> omega
  · omega
  · omega

theorem neighbors_length_le {g : Grid} (b : Bubble) : (neighbors g b).length ≤ 6 := by
  unfold neighbors
  by_cases hrow : b.row < g.length
  · simp only [hrow, if_true]
    refine (List.length_filterMap_le _ _).trans ?_
    by_cases hpar : b.row % 2 = 0 <;> simp [hpar, deltasEven, deltasOdd]
  · simp [hrow]

theorem keyOf_mem_keysFinset {g : Grid} {b : Bubble} (hb : b ∈ cells g) :
    keyOf b ∈ keysFinset g :=
  List.mem_toFinset.mpr (List.mem_map_of_mem keyOf hb)

theorem row0_subset_cells (g : Grid) : ∀ b ∈ row0 g, b ∈ cells g := by
  cases g with
  | nil => simp [row0]
  | cons r rest =>
    intro b hb
    exact @mem_cells_of_mem_row (r :: rest) 0 (by simp) b (by simpa [row0] using hb)

theorem floatStep_mem_keys (g : Grid) : ∀ k, ∀ k' ∈ floatStep g k, k' ∈ keysFinset g := by
  intro k k' hk'
  unfold floatStep at hk'
  rcases hcell : cellAt g k with _ | b
  · rw [hcell] at hk'
    cases hk'
  · rw [hcell] at hk'
    rcases List.mem_map.mp hk' with ⟨n, hn, rfl⟩
    exact keyOf_mem_keysFinset (mem_neighbors_mem_cells hn)

theorem clusterStep_mem_keys (g : Grid) (tc : Nat) :
    ∀ k, ∀ k' ∈ clusterStep g tc k, k' ∈ keysFinset g := by
  intro k k' hk'
  unfold clusterStep at hk'
  split at hk'
  · cases hk'
  · split at hk'
    · rcases List.mem_map.mp hk' with ⟨n, hn, rfl⟩
      exact keyOf_mem_keysFinset (mem_neighbors_mem_cells (List.mem_of_mem_filter hn))
    · cases hk'

theorem keysFinset_card_le (g : Grid) : (keysFinset g).card ≤ totalCells g :=
  (List.toFinset_card_le _).trans (by simp [totalCells])

theorem row0Keys_subset (g : Grid) : row0Keys g ⊆ keysFinset g := by
  intro k hk
  rcases List.mem_map.mp (List.mem_toFinset.mp hk) with ⟨b, hb, rfl⟩
  exact keyOf_mem_keysFinset (row0_subset_cells g b hb)

theorem mem_connectedKeys_iff (g : Grid) (k : Key) :
    k ∈ connectedKeys g ↔ ReachesVia (floatStep g) (row0Keys g) k := by
  refine mem_closureIter_iff (floatStep g) (keysFinset g) (floatStep_mem_keys g)
    (totalCells g) (row0Keys g) (row0Keys_subset g) ?_ k
  have := keysFinset_card_le g
  omega

theorem mem_clusterKeys_iff (g : Grid) (origin : Bubble) (horig : origin ∈ cells g)
    (k : Key) :
    k ∈ clusterKeys g origin ↔ ReachesVia (clusterStep g origin.color) {keyOf origin} k := by
  refine mem_closureIter_iff (clusterStep g origin.color) (keysFinset g)
    (clusterStep_mem_keys g origin.color) (totalCells g) {keyOf origin} ?_ ?_ k
  · intro k hk
    rw [Finset.mem_singleton] at hk
    subst hk
    exact keyOf_mem_keysFinset horig
  · have := keysFinset_card_le g
    omega

theorem exists_row0_of_mem_row0Keys {g : Grid} {k : Key} (hk : k ∈ row0Keys g) :
    ∃ b ∈ row0 g, keyOf b = k := by
  rcases List.mem_map.mp (List.mem_toFinset.mp hk) with ⟨b, hb, rfl⟩
  exact ⟨b, hb, rfl⟩

theorem reachesVia_float_exists {g : Grid} (hinv : GridInv g) {k : Key}
    (h : ReachesVia (floatStep g) (row0Keys g) k) :
    ∃ b, b ∈ cells g ∧ keyOf b = k ∧ ReachableFromTop g b := by
  rcases h with ⟨k₀, hk₀, hpath⟩
  induction hpath with
  | refl =>
    rcases exists_row0_of_mem_row0Keys hk₀ with ⟨b₀, hb₀, rfl⟩
    exact ⟨b₀, row0_subset_cells g b₀ hb₀, rfl, b₀, hb₀, Relation.ReflTransGen.refl⟩
  | tail _ hstep ih =>
    rcases ih with ⟨b₁, hb₁, rfl, hr₁⟩
    unfold floatStep at hstep
    rw [cellAt_keyOf hinv hb₁] at hstep
    rcases List.mem_map.mp hstep with ⟨n, hn, rfl⟩
    rcases hr₁ with ⟨b₀, hb₀, hpath₁⟩
    exact ⟨n, mem_neighbors_mem_cells hn, rfl, b₀, hb₀, hpath₁.tail hn⟩

theorem reachableFromTop_keyOf_mem {g : Grid} (hinv : GridInv g) {b : Bubble}
    (hb : ReachableFromTop g b) : b ∈ cells g ∧ keyOf b ∈ connectedKeys g := by
  rcases hb with ⟨b₀, hb₀, hpath⟩
  induction hpath with
  | refl =>
    refine ⟨row0_subset_cells g b₀ hb₀, ?_⟩
    refine (mem_connectedKeys_iff g _).mpr ⟨keyOf b₀, ?_, Relation.ReflTransGen.refl⟩
    exact List.mem_toFinset.mpr (List.mem_map_of_mem keyOf hb₀)
  | tail _ hstep ih =>
    rcases ih with ⟨hmem, hkey⟩
    refine ⟨mem_neighbors_mem_cells hstep, ?_⟩
    rcases (mem_connectedKeys_iff g _).mp hkey with ⟨k₀, hk₀, hpath'⟩
    refine (mem_connectedKeys_iff g _).mpr ⟨k₀, hk₀, hpath'.tail ?_⟩
    unfold floatStep
    rw [cellAt_keyOf hinv hmem]
    exact List.mem_map_of_mem keyOf hstep

theorem connectedKeys_iff_reachable {g : Grid} (hinv : GridInv g) {b : Bubble}
    (hb : b ∈ cells g) : keyOf b ∈ connectedKeys g ↔ ReachableFromTop g b := by
  constructor
  · intro h
    rcases reachesVia_float_exists hinv ((mem_connectedKeys_iff g _).mp h) with
      ⟨b', hb', hk, hr⟩
    have heq := keyOf_injOn hinv hb' hb hk
    exact heq ▸ hr
  · intro h
    exact (reachableFromTop_keyOf_mem hinv h).2

theorem inColorComponent_color {g : Grid} {origin b : Bubble}
    (h : InColorComponent g origin b) : b.color = origin.color := by
  induction h with
  | refl => rfl
  | tail _ hstep _ => exact hstep.2.2

theorem reachesVia_cluster_exists {g : Grid} (hinv : GridInv g) {origin : Bubble}
    (horig : origin ∈ cells g) {k : Key}
    (h : ReachesVia (clusterStep g origin.color) {keyOf origin} k) :
    ∃ b, b ∈ cells g ∧ keyOf b = k ∧ InColorComponent g origin b := by
  rcases h with ⟨k₀, hk₀, hpath⟩
  rw [Finset.mem_singleton] at hk₀
  subst hk₀
  induction hpath with
  | refl => exact ⟨origin, horig, rfl, Relation.ReflTransGen.refl⟩
  | tail _ hstep ih =>
    rcases ih with ⟨b₁, hb₁, rfl, hc₁⟩
    have hcol : b₁.color = origin.color := inColorComponent_color hc₁
    unfold clusterStep at hstep
    simp only [cellAt_keyOf hinv hb₁] at hstep
    rw [if_pos hcol] at hstep
    rcases List.mem_map.mp hstep with ⟨n, hn, rfl⟩
    have hn' := List.mem_filter.mp hn
    refine ⟨n, mem_neighbors_mem_cells hn'.1, rfl, hc₁.tail ?_⟩
    exact ⟨hcol, hn'.1, by simpa using hn'.2⟩

theorem inColorComponent_keyOf_mem {g : Grid} (hinv : GridInv g) {origin b : Bubble}
    (horig : origin ∈ cells g) (h : InColorComponent g origin b) :
    b ∈ cells g ∧ keyOf b ∈ clusterKeys g origin := by
  induction h with
  | refl =>
    exact ⟨horig, (mem_clusterKeys_iff g origin horig _).mpr
      ⟨keyOf origin, Finset.mem_singleton_self _, Relation.ReflTransGen.refl⟩⟩
  | tail _ hstep ih =>
    rcases ih with ⟨hmem, hkey⟩
    refine ⟨mem_neighbors_mem_cells hstep.2.1, ?_⟩
    rcases (mem_clusterKeys_iff g origin horig _).mp hkey with ⟨k₀, hk₀, hpath'⟩
    refine (mem_clusterKeys_iff g origin horig _).mpr ⟨k₀, hk₀, hpath'.tail ?_⟩
    unfold clusterStep
    simp only [cellAt_keyOf hinv hmem]
    rw [if_pos hstep.1]
    exact List.mem_map_of_mem keyOf (List.mem_filter.mpr ⟨hstep.2.1, by simp [hstep.2.2]⟩)

theorem clusterKeys_iff_component {g : Grid} (hinv : GridInv g) {origin b : Bubble}
    (horig : origin ∈ cells g) (hb : b ∈ cells g) :
    keyOf b ∈ clusterKeys g origin ↔ InColorComponent g origin b := by
  constructor
  · intro h
    rcases reachesVia_cluster_exists hinv horig
      ((mem_clusterKeys_iff g origin horig _).mp h) with ⟨b', hb', hk, hc⟩
    have heq := keyOf_injOn hinv hb' hb hk
    exact heq ▸ hc
  · intro h
    exact (inColorComponent_keyOf_mem hinv horig h).2

theorem markFn_row (ks : Finset Key) (b : Bubble) :
    (if keyOf b ∈ ks then { b with removing := true } else b).row = b.row := by
  split <;> rfl

theorem markFn_c (ks : Finset Key) (b : Bubble) :
    (if keyOf b ∈ ks then { b with removing := true } else b).c = b.c := by
  split <;> rfl

theorem cells_mapRows (g : Grid) (f : Bubble → Bubble) :
    cells (g.map (fun row => row.map f)) = (cells g).map f := by
  simp [cells, List.map_flatten]

theorem cells_markRemoving (g : Grid) (ks : Finset Key) :
    cells (markRemoving g ks) =
      (cells g).map (fun b => if keyOf b ∈ ks then { b with removing := true } else b) :=
  cells_mapRows g _

theorem mapRows_getD {g : Grid} (f : List Bubble → List Bubble) {i : Nat}
    (h : i < g.length) : (g.map f).getD i [] = f (g.getD i []) := by
  rw [grid_getD_eq_getElem h, grid_getD_eq_getElem (by simpa using h)]
  simp

theorem gridInv_mapRows_of (g : Grid) (f : Bubble → Bubble)
    (hrow : ∀ b, (f b).row = b.row) (hc : ∀ b, (f b).c = b.c)
    (hinv : GridInv g) : GridInv (g.map (fun row => row.map f)) := by
  constructor
  · intro i hi b hb
    have hi' : i < g.length := by simpa using hi
    rw [List.getElem_map] at hb
    rcases List.mem_map.mp hb with ⟨a, ha, rfl⟩
    rw [hrow a]
    exact hinv.1 i hi' a ha
  · intro row hrowmem
    rcases List.mem_map.mp hrowmem with ⟨r, hr, rfl⟩
    have : (r.map f).map Bubble.c = r.map Bubble.c := by
      rw [List.map_map]
      exact List.map_congr_left (fun b _ => hc b)
    rw [this]
    exact hinv.2 r hr

theorem gridInv_markRemoving {g : Grid} (hinv : GridInv g) (ks : Finset Key) :
    GridInv (markRemoving g ks) :=
  gridInv_mapRows_of g _ (markFn_row ks) (markFn_c ks) hinv

theorem gridInv_filterRows {g : Grid} (hinv : GridInv g) (p : Bubble → Bool) :
    GridInv (g.map (fun row => row.filter p)) := by
  constructor
  · intro i hi b hb
    have hi' : i < g.length := by simpa using hi
    rw [List.getElem_map] at hb
    exact hinv.1 i hi' b (List.mem_of_mem_filter hb)
  · intro row hrowmem
    rcases List.mem_map.mp hrowmem with ⟨r, hr, rfl⟩
    exact List.Nodup.sublist (List.Sublist.map Bubble.c (List.filter_sublist r)) (hinv.2 r hr)

theorem mem_cells_mapFilter {g : Grid} {p : Bubble → Bool} {b : Bubble} :
    b ∈ cells (g.map (fun row => row.filter p)) ↔ b ∈ cells g ∧ p b = true := by
  simp only [cells, List.mem_flatten, List.mem_map]
  constructor
  · rintro ⟨row', ⟨row, hrow, rfl⟩, hb⟩
    have := List.mem_filter.mp hb
    exact ⟨⟨row, hrow, this.1⟩, this.2⟩
  · rintro ⟨⟨row, hrow, hb⟩, hp⟩
    exact ⟨row.filter p, ⟨row, hrow, rfl⟩, List.mem_filter.mpr ⟨hb, hp⟩⟩

theorem neighbors_filter_of_keep {g : Grid} (hinv : GridInv g) {p : Bubble → Bool}
    {a n : Bubble} (hn : n ∈ neighbors g a) (hkeep : p n = true) :
    n ∈ neighbors (g.map (fun row => row.filter p)) a := by
  rcases mem_neighbors_iff.mp hn with ⟨hrow, d, hd, hrange, hfind⟩
  have hlen : (g.map (fun row => row.filter p)).length = g.length := by simp
  refine mem_neighbors_iff.mpr ⟨by simpa [hlen] using hrow, d, hd, by simpa [hlen] using hrange, ?_⟩
  have hrange' : ¬((a.row : Int) + d.1 < 0) ∧ ¬((g.length : Int) ≤ (a.row : Int) + d.1) := by
    constructor <;> intro h <;> exact hrange (by tauto)
  have hlt : ((a.row : Int) + d.1).toNat < g.length := by omega
  rw [mapRows_getD _ hlt]
  rw [grid_getD_eq_getElem hlt] at hfind ⊢
  have hmem := (findByCol_eq_some hfind).1
  have hc := (findByCol_eq_some hfind).2
  have hnd : ((g[((a.row : Int) + d.1).toNat]).map Bubble.c).Nodup :=
    hinv.2 _ (List.getElem_mem hlt)
  have hnd' : (((g[((a.row : Int) + d.1).toNat]).filter p).map Bubble.c).Nodup :=
    List.Nodup.sublist (List.Sublist.map Bubble.c (List.filter_sublist _)) hnd
  have hmem' : n ∈ (g[((a.row : Int) + d.1).toNat]).filter p :=
    List.mem_filter.mpr ⟨hmem, hkeep⟩
  rw [← hc]
  exact findByCol_eq_some_of_nodup hnd' hmem'

theorem reachable_preserved_filter {g : Grid} (hinv : GridInv g) {p : Bubble → Bool}
    (hp : ∀ b, b ∈ cells g → ReachableFromTop g b → p b = true)
    {b : Bubble} (hb : ReachableFromTop g b) :
    ReachableFromTop (g.map (fun row => row.filter p)) b := by
  rcases hb with ⟨b₀, hb₀, hpath⟩
  have hb₀cells : b₀ ∈ cells g := row0_subset_cells g b₀ hb₀
  have hb₀keep : p b₀ = true :=
    hp b₀ hb₀cells ⟨b₀, hb₀, Relation.ReflTransGen.refl⟩
  have hb₀' : b₀ ∈ row0 (g.map (fun row => row.filter p)) := by
    cases g with
    | nil => simp [row0] at hb₀
    | cons r rest =>
      simp only [row0, List.map_cons, List.headD_cons] at hb₀ ⊢
      exact List.mem_filter.mpr ⟨hb₀, hb₀keep⟩
  refine ⟨b₀, hb₀', ?_⟩
  induction hpath with
  | refl => exact Relation.ReflTransGen.refl
  | tail hpath₁ hstep ih =>
    rename_i a n
    have hreachn : ReachableFromTop g n := ⟨b₀, hb₀, hpath₁.tail hstep⟩
    have hkeepn : p n = true := hp n (mem_neighbors_mem_cells hstep) hreachn
    exact ih.tail (neighbors_filter_of_keep hinv hstep hkeepn)

theorem floatKeep_true_iff (connected : Finset Key) (b : Bubble) :
    floatKeep connected b = true ↔ keyOf b ∈ connected ∨ b.removing = true := by
  simp [floatKeep]

theorem floatingCheck_grid (g : Grid) (score : Nat) :
    (floatingCheck g score).1 = g.map (fun row => row.filter (floatKeep (connectedKeys g))) :=
  rfl

theorem gridInv_floatingCheck {g : Grid} (hinv : GridInv g) (score : Nat) :
    GridInv (floatingCheck g score).1 :=
  gridInv_filterRows hinv _

theorem floatingCheck_closure {g : Grid} (hinv : GridInv g) (score : Nat) :
    ∀ b ∈ cells (floatingCheck g score).1,
      ReachableFromTop (floatingCheck g score).1 b ∨ b.removing = true := by
  intro b hb
  rw [floatingCheck_grid] at hb
  rcases mem_cells_mapFilter.mp hb with ⟨hbg, hkeep⟩
  rcases (floatKeep_true_iff _ b).mp hkeep with hconn | hrem
  · left
    rw [floatingCheck_grid]
    refine reachable_preserved_filter hinv ?_ ?_
    · intro c hc hreach
      exact (floatKeep_true_iff _ c).mpr
        (Or.inl ((connectedKeys_iff_reachable hinv hc).mpr hreach))
    · exact (connectedKeys_iff_reachable hinv hbg).mp hconn
  · right
    exact hrem

theorem growTo_length (g : Grid) (row : Nat) :
    (growTo g row).length = max (row + 1) g.length := by
  simp only [growTo, List.length_append, List.length_replicate]
  omega

theorem growTo_getD (g : Grid) (row : Nat) :
    (growTo g row).getD row [] = g.getD row [] := by
  by_cases h : row < g.length
  · rw [grid_getD_eq_getElem h,
      grid_getD_eq_getElem (g := growTo g row) (by rw [growTo_length]; omega)]
    simp only [growTo]
    exact List.getElem_append_left h
  · push_neg at h
    rw [grid_getD_eq_nil h]
    by_cases h2 : row < (growTo g row).length
    · rw [grid_getD_eq_getElem h2]
      simp only [growTo]
      rw [List.getElem_append_right (by omega)]
      simp
    · exact grid_getD_eq_nil (by omega)

theorem growTo_eq_self {g : Grid} {row : Nat} (h : row < g.length) : growTo g row = g := by
  simp only [growTo]
  rw [show row + 1 - g.length = 0 by omega]
  simp

theorem gridInv_growTo {g : Grid} (hinv : GridInv g) (row : Nat) : GridInv (growTo g row) := by
  constructor
  · intro i hi b hb
    simp only [growTo] at hb
    by_cases h : i < g.length
    · rw [List.getElem_append_left h] at hb
      exact hinv.1 i h b hb
    · push_neg at h
      rw [List.getElem_append_right h] at hb
      simp at hb
  · intro r hr
    simp only [growTo] at hr
    rcases List.mem_append.mp hr with hr | hr
    · exact hinv.2 r hr
    · rw [List.eq_of_mem_replicate hr]
      simp

theorem gridInv_set_append {g : Grid} (hinv : GridInv g) {row : Nat} (hrow : row < g.length)
    {col : Int} (hfree : findByCol (g.getD row []) col = none)
    (x y : ℚ) (color : Nat) :
    GridInv (g.set row ((g.getD row []) ++ [⟨row, col, x, y, color, false⟩])) := by
  rw [grid_getD_eq_getElem hrow] at hfree ⊢
  have hnotin : col ∉ (g[row]).map Bubble.c := by
    intro hmem
    rcases List.mem_map.mp hmem with ⟨a, ha, rfl⟩
    have hfa := List.find?_eq_none.mp hfree a ha
    simp [findByCol] at hfa
  constructor
  · intro i hi b hb
    have hi' : i < g.length := by simpa using hi
    rw [List.getElem_set] at hb
    by_cases hij : row = i
    · subst hij
      rw [if_pos rfl] at hb
      rcases List.mem_append.mp hb with hb | hb
      · exact hinv.1 row hrow b hb
      · rw [List.mem_singleton.mp hb]
    · rw [if_neg hij] at hb
      exact hinv.1 i hi' b hb
  · intro r hr
    rcases List.mem_iff_getElem.mp hr with ⟨i, hi, hri⟩
    have hi' : i < g.length := by simpa using hi
    rw [← hri, List.getElem_set]
    by_cases hij : row = i
    · rw [if_pos hij]
      simp only [List.map_append, List.map_cons, List.map_nil]
      rw [List.nodup_append]
      refine ⟨hinv.2 g[row] (List.getElem_mem hrow), List.nodup_singleton _, ?_⟩
      intro a ha
      simp only [List.mem_singleton]
      intro hcontra
      exact hnotin (hcontra ▸ ha)
    · rw [if_neg hij]
      exact hinv.2 g[i] (List.getElem_mem hi')

theorem gridInv_clusterCheck {g : Grid} (hinv : GridInv g) (score : Nat) (origin : Bubble) :
    GridInv (clusterCheck g score origin).1 := by
  unfold clusterCheck
  by_cases h : CONFIG.minCluster ≤ (clusterKeys g origin).card
  · simpa [h] using gridInv_markRemoving hinv (clusterKeys g origin)
  · simpa [h] using hinv

theorem addBubbleAt_gridInv {g : Grid} (hinv : GridInv g) (score : Nat) (width : ℚ)
    (pc : Nat) (tx ty : ℚ) : GridInv (addBubbleAt g score width pc tx ty).1 := by
  simp only [addBubbleAt]
  split
  · exact gridInv_growTo hinv _
  · rename_i hfree
    rw [floatingCheck_grid]
    apply gridInv_filterRows
    apply gridInv_clusterCheck
    apply gridInv_set_append (gridInv_growTo hinv _) ?_ hfree
    rw [growTo_length]
    omega

/-- C2: placement into an occupied slot is a silent no-op.  When the slot
the target coordinates snap to already holds a bubble, `addBubbleAt`
returns the grid and score unchanged: nothing is added or replaced, no
score is awarded, and neither the cluster pop check nor the floating
check runs (the shot was already consumed by the caller). -/
theorem occupied_slot_placement_noop {g : Grid} {score : Nat} {width : ℚ} {pc : Nat}
    {tx ty : ℚ}
    (hocc : cellAt g (targetRow ty, targetCol width (targetRow ty) tx) ≠ none) :
    addBubbleAt g score width pc tx ty = (g, score) := by
  rcases Option.ne_none_iff_exists'.mp hocc with ⟨bf, hbf⟩
  have hmem := (findByCol_eq_some hbf).1
  have hrowlt : targetRow ty < g.length := by
    by_contra hge
    push_neg at hge
    rw [grid_getD_eq_nil hge] at hmem
    cases hmem
  have hsome : findByCol ((growTo g (targetRow ty)).getD (targetRow ty) [])
      (targetCol width (targetRow ty) tx) = some bf := by
    rw [growTo_getD]
    exact hbf
  simp only [addBubbleAt, hsome]
  rw [growTo_eq_self hrowlt]

/-- C1 (amended): after a placement into a free slot (cluster pop check
followed by the floating check), every occupied cell remaining in the
grid is reachable from a row-0 bubble via repeated `neighbors` links or
is marked for removal; equivalently, every cell that is neither anchored
nor flagged has been detached.  (The original claim fails: pop-marked
bubbles stay in the grid and may be reachable from row 0, and pop-marked
unreachable cells are flagged but not detached.) -/
theorem placement_unanchored_cells_detached {g : Grid} (hinv : GridInv g) (score : Nat)
    (width : ℚ) (pc : Nat) (tx ty : ℚ)
    (hfree : cellAt g (targetRow ty, targetCol width (targetRow ty) tx) = none) :
    ∀ b ∈ cells (addBubbleAt g score width pc tx ty).1,
      ReachableFromTop (addBubbleAt g score width pc tx ty).1 b ∨ b.removing = true := by
  have hnone : findByCol ((growTo g (targetRow ty)).getD (targetRow ty) [])
      (targetCol width (targetRow ty) tx) = none := by
    rw [growTo_getD]
    exact hfree
  simp only [addBubbleAt, hnone]
  apply floatingCheck_closure
  case hinv =>
    apply gridInv_clusterCheck
    apply gridInv_set_append (gridInv_growTo hinv _) ?_ hnone
    rw [growTo_length]
    omega

theorem clusterCheck_pop {g : Grid} {score : Nat} {origin : Bubble}
    (h : CONFIG.minCluster ≤ (clusterKeys g origin).card) :
    clusterCheck g score origin =
      (markRemoving g (clusterKeys g origin),
        score + (clusterKeys g origin).card * 10) := by
  simp [clusterCheck, h]

theorem clusterCheck_nopop {g : Grid} {score : Nat} {origin : Bubble}
    (h : ¬ CONFIG.minCluster ≤ (clusterKeys g origin).card) :
    clusterCheck g score origin = (g, score) := by
  simp [clusterCheck, h]

theorem clusterCheck_score (g : Grid) (score : Nat) (origin : Bubble) :
    (clusterCheck g score origin).2 =
      score + (if CONFIG.minCluster ≤ (clusterKeys g origin).card
        then (clusterKeys g origin).card * 10 else 0) := by
  by_cases h : CONFIG.minCluster ≤ (clusterKeys g origin).card
  · simp [clusterCheck_pop h, h]
  · simp [clusterCheck_nopop h, h]

theorem floatingCheck_score (g : Grid) (score : Nat) :
    (floatingCheck g score).2.1 = score + 20 * (floatingCheck g score).2.2.length := rfl

theorem addBubbleAt_score_mono (g : Grid) (score : Nat) (width : ℚ) (pc : Nat)
    (tx ty : ℚ) : score ≤ (addBubbleAt g score width pc tx ty).2 := by
  simp only [addBubbleAt]
  split
  · exact Nat.le_refl score
  · rw [floatingCheck_score, clusterCheck_score]
    omega

theorem list_map_eq_self {α : Type} {l : List α} {f : α → α} (h : ∀ x ∈ l, f x = x) :
    l.map f = l := by
  induction l with
  | nil => rfl
  | cons a l ih =>
    simp only [List.map_cons]
    rw [h a (List.mem_cons_self a l), ih (fun x hx => h x (List.mem_cons_of_mem a hx))]

theorem list_flatten_eq_nil {α : Type} {l : List (List α)} (h : ∀ x ∈ l, x = []) :
    l.flatten = [] := by
  induction l with
  | nil => rfl
  | cons a l ih =>
    simp only [List.flatten_cons]
    rw [h a (List.mem_cons_self a l), ih (fun x hx => h x (List.mem_cons_of_mem a hx))]
    rfl

theorem mem_row_mem_cells {g : Grid} {row : List Bubble} (hrow : row ∈ g) {b : Bubble}
    (hb : b ∈ row) : b ∈ cells g :=
  List.mem_flatten.mpr ⟨row, hrow, hb⟩

theorem floatingCheck_noop {G : Grid} {S : Nat}
    (hkeep : ∀ b ∈ cells G, floatKeep (connectedKeys G) b = true) :
    floatingCheck G S = (G, S, []) := by
  have hgrid : G.map (fun row => row.filter (floatKeep (connectedKeys G))) = G := by
    apply list_map_eq_self
    intro row hrow
    apply List.filter_eq_self.mpr
    intro b hb
    exact hkeep b (mem_row_mem_cells hrow hb)
  have hdrop : (G.map (fun row =>
      (row.filter (fun b => !(floatKeep (connectedKeys G) b))).reverse)).flatten =
      ([] : List Bubble) := by
    apply list_flatten_eq_nil
    intro x hx
    rcases List.mem_map.mp hx with ⟨row, hrow, rfl⟩
    have hfe : row.filter (fun b => !(floatKeep (connectedKeys G) b)) = [] := by
      apply List.filter_eq_nil_iff.mpr
      intro b hb
      simp [hkeep b (mem_row_mem_cells hrow hb)]
    rw [hfe]
    rfl
  simp only [floatingCheck]
  rw [hdrop, hgrid]
  simp

/-- C1 counterexample: placing a color-0 bubble at (80, 16) on `gridC1`
completes a 3-cluster in row 0.  The pop only flags the cluster, so cell
(0,0) stays in the grid, is reachable from the row-0 bubble (0,1) via one
`neighbors` link, and is marked for removal — refuting the claim that
every bubble reachable from row 0 is unmarked after a placement. -/
theorem popped_cluster_reachable_and_marked :
    bubbleC1 ∈ cells (addBubbleAt gridC1 0 480 0 80 16).1 ∧ bubbleC1.removing = true ∧
      ReachableFromTop (addBubbleAt gridC1 0 480 0 80 16).1 bubbleC1 := by
  have hmem : bubbleC1 ∈ cells (addBubbleAt gridC1 0 480 0 80 16).1 := by
    with_unfolding_all decide
  have hb0 : (⟨0, 1, 48, 16, 0, true⟩ : Bubble) ∈ row0 (addBubbleAt gridC1 0 480 0 80 16).1 := by
    with_unfolding_all decide
  have hstep : bubbleC1 ∈ neighbors (addBubbleAt gridC1 0 480 0 80 16).1
      ⟨0, 1, 48, 16, 0, true⟩ := by
    with_unfolding_all decide
  exact ⟨hmem, rfl, ⟨0, 1, 48, 16, 0, true⟩, hb0, Relation.ReflTransGen.single hstep⟩

/-- C1 witness: the amended closure property instantiated on `gridC1`. -/
theorem placement_unanchored_cells_detached_witness :
    (GridInv gridC1 ∧
      cellAt gridC1 (targetRow 16, targetCol 480 (targetRow 16) 80) = none ∧
      bubbleC1 ∈ cells (addBubbleAt gridC1 0 480 0 80 16).1) ∧
      (ReachableFromTop (addBubbleAt gridC1 0 480 0 80 16).1 bubbleC1 ∨
        bubbleC1.removing = true) :=
  ⟨⟨by with_unfolding_all decide, by with_unfolding_all decide, by with_unfolding_all decide⟩,
    placement_unanchored_cells_detached (by with_unfolding_all decide) 0 480 0 80 16
      (by with_unfolding_all decide) bubbleC1 (by with_unfolding_all decide)⟩

/-- C2 witness: on `gridC2` the target (80, 16) snaps to the occupied slot
(0,2); the placement leaves the state untouched. -/
theorem occupied_slot_placement_noop_witness :
    cellAt gridC2 (targetRow 16, targetCol 480 (targetRow 16) 80) ≠ none ∧
      addBubbleAt gridC2 5 480 1 80 16 = (gridC2, 5) :=
  ⟨by with_unfolding_all decide,
    occupied_slot_placement_noop (by with_unfolding_all decide)⟩

/-- C3: the cluster pop threshold is exactly `minCluster = 3`.  The key set
`clusterKeys` is exactly the connected same-color component of the placed
bubble; when its size is below 3 the check does nothing (so a 2-bubble
component never pops), and when its size is at least 3 every member is
flagged for removal (a 3-bubble component always pops) and the score
grows by 10 points per member. -/
theorem cluster_pop_threshold_spec {g : Grid} (hinv : GridInv g) (score : Nat)
    {origin : Bubble} (horig : origin ∈ cells g) :
    (∀ b ∈ cells g, (keyOf b ∈ clusterKeys g origin ↔ InColorComponent g origin b)) ∧
    ((clusterKeys g origin).card < CONFIG.minCluster →
      clusterCheck g score origin = (g, score)) ∧
    (CONFIG.minCluster ≤ (clusterKeys g origin).card →
      (clusterCheck g score origin).2 = score + (clusterKeys g origin).card * 10 ∧
      cells (clusterCheck g score origin).1 =
        (cells g).map (fun b =>
          if keyOf b ∈ clusterKeys g origin then { b with removing := true } else b)) := by
  refine ⟨fun b hb => clusterKeys_iff_component hinv horig hb, ?_, ?_⟩
  · intro h
    exact clusterCheck_nopop (by omega)
  · intro h
    rw [clusterCheck_pop h]
    exact ⟨rfl, cells_markRemoving g _⟩

/-- C3 witness: the threshold specification instantiated on the 3-bubble
component of `gridC3` (size exactly 3: the pop fires and scores 30). -/
theorem cluster_pop_threshold_spec_witness :
    (GridInv gridC3 ∧ originC3 ∈ cells gridC3) ∧
      ((∀ b ∈ cells gridC3,
          (keyOf b ∈ clusterKeys gridC3 originC3 ↔ InColorComponent gridC3 originC3 b)) ∧
        ((clusterKeys gridC3 originC3).card < CONFIG.minCluster →
          clusterCheck gridC3 0 originC3 = (gridC3, 0)) ∧
        (CONFIG.minCluster ≤ (clusterKeys gridC3 originC3).card →
          (clusterCheck gridC3 0 originC3).2 = 0 + (clusterKeys gridC3 originC3).card * 10 ∧
          cells (clusterCheck gridC3 0 originC3).1 =
            (cells gridC3).map (fun b =>
              if keyOf b ∈ clusterKeys gridC3 originC3 then { b with removing := true }
              else b))) :=
  ⟨⟨by with_unfolding_all decide, by with_unfolding_all decide⟩,
    cluster_pop_threshold_spec (by with_unfolding_all decide) 0
      (by with_unfolding_all decide)⟩

/-- C8: the floating check is idempotent.  Running it a second time with no
intervening placement returns the same grid and score and detaches no
bubble (empty falling list), so no bubble is ever marked or scored twice. -/
theorem floatingCheck_idempotent {g : Grid} (hinv : GridInv g) (score : Nat) :
    floatingCheck (floatingCheck g score).1 (floatingCheck g score).2.1 =
      ((floatingCheck g score).1, (floatingCheck g score).2.1, []) := by
  apply floatingCheck_noop
  intro b hb
  rcases floatingCheck_closure hinv score b hb with hreach | hrem
  · exact (floatKeep_true_iff _ b).mpr (Or.inl
      ((connectedKeys_iff_reachable (gridInv_floatingCheck hinv score) hb).mpr hreach))
  · exact (floatKeep_true_iff _ b).mpr (Or.inr hrem)

/-- C8 witness: idempotence on `gridC8`, whose first floating check drops
the bubble at (2,1). -/
theorem floatingCheck_idempotent_witness :
    GridInv gridC8 ∧
      floatingCheck (floatingCheck gridC8 0).1 (floatingCheck gridC8 0).2.1 =
        ((floatingCheck gridC8 0).1, (floatingCheck gridC8 0).2.1, []) :=
  ⟨by with_unfolding_all decide,
    floatingCheck_idempotent (by with_unfolding_all decide) 0⟩

theorem findByCol_map {row : List Bubble} {f : Bubble → Bubble} (hc : ∀ b, (f b).c = b.c)
    (nc : Int) : findByCol (row.map f) nc = (findByCol row nc).map f := by
  induction row with
  | nil => rfl
  | cons a l ih =>
    cases h : a.c == nc with
    | true => simp [findByCol, List.find?_cons, hc a, h]
    | false =>
      simp only [findByCol, List.map_cons, List.find?_cons, hc a, h]
      exact ih

theorem cellAt_mapRows {g : Grid} {f : Bubble → Bubble} (hc : ∀ b, (f b).c = b.c)
    (k : Key) : cellAt (g.map (fun row => row.map f)) k = (cellAt g k).map f := by
  unfold cellAt
  by_cases h : k.1 < g.length
  · rw [mapRows_getD _ h, findByCol_map hc]
  · push_neg at h
    rw [grid_getD_eq_nil (g := g.map _) (by simpa using h), grid_getD_eq_nil h]
    rfl

/-- C9: a cluster pop never removes bubbles from the grid: `clusterCheck`
only sets removal flags — every row keeps its length, every slot keeps an
occupant with the same column, position and color (so flagged bubbles stay
visible to `neighbors` and to the win check) — whereas the floating check
splices each disconnected bubble out of its row immediately: its grid is
the keep-filter of the rows and no detached bubble remains in it. -/
theorem cluster_pop_keeps_cells_floating_detaches (g : Grid) (score : Nat)
    (origin : Bubble) :
    totalCells (clusterCheck g score origin).1 = totalCells g ∧
    (clusterCheck g score origin).1.length = g.length ∧
    (∀ k, cellAt (clusterCheck g score origin).1 k =
      Option.map (fun b =>
        if CONFIG.minCluster ≤ (clusterKeys g origin).card ∧ keyOf b ∈ clusterKeys g origin
        then { b with removing := true } else b) (cellAt g k)) ∧
    cells (clusterCheck g score origin).1 =
      (cells g).map (fun b =>
        if CONFIG.minCluster ≤ (clusterKeys g origin).card ∧ keyOf b ∈ clusterKeys g origin
        then { b with removing := true } else b) ∧
    (floatingCheck g score).1 =
      g.map (fun row => row.filter (floatKeep (connectedKeys g))) ∧
    (∀ b ∈ (floatingCheck g score).2.2, b ∉ cells (floatingCheck g score).1) := by
  have hfloatgrid : (floatingCheck g score).1 =
      g.map (fun row => row.filter (floatKeep (connectedKeys g))) := rfl
  have hdropped : ∀ b ∈ (floatingCheck g score).2.2, b ∉ cells (floatingCheck g score).1 := by
    intro b hb hmem
    rw [hfloatgrid] at hmem
    have hkeep := (mem_cells_mapFilter.mp hmem).2
    rcases List.mem_flatten.mp hb with ⟨x, hx, hbx⟩
    rcases List.mem_map.mp hx with ⟨row, hrow, rfl⟩
    have := List.mem_filter.mp (List.mem_reverse.mp hbx)
    rw [hkeep] at this
    simpa using this.2
  by_cases hpop : CONFIG.minCluster ≤ (clusterKeys g origin).card
  · have hcells : cells (clusterCheck g score origin).1 =
        (cells g).map (fun b =>
          if CONFIG.minCluster ≤ (clusterKeys g origin).card ∧
            keyOf b ∈ clusterKeys g origin
          then { b with removing := true } else b) := by
      rw [clusterCheck_pop hpop, cells_markRemoving]
      exact List.map_congr_left (fun b _ => by by_cases hk : keyOf b ∈ clusterKeys g origin <;>
        simp [hpop, hk])
    refine ⟨?_, ?_, ?_, hcells, hfloatgrid, hdropped⟩
    · rw [totalCells, hcells]
      simp [totalCells]
    · rw [clusterCheck_pop hpop]
      simp [markRemoving]
    · intro k
      rw [clusterCheck_pop hpop]
      simp only [markRemoving]
      rw [cellAt_mapRows (markFn_c (clusterKeys g origin)) k]
      cases cellAt g k with
      | none => rfl
      | some b =>
        by_cases hk : keyOf b ∈ clusterKeys g origin <;> simp [hpop, hk]
  · have hid : clusterCheck g score origin = (g, score) := clusterCheck_nopop hpop
    refine ⟨by rw [hid], by rw [hid], ?_, ?_, hfloatgrid, hdropped⟩
    · intro k
      rw [hid]
      cases cellAt g k with
      | none => rfl
      | some b => simp [hpop]
    · rw [hid]
      exact (list_map_eq_self (fun b _ => by simp [hpop])).symm

/-- C9 witness: the pop/detach split instantiated on `gridC9`, whose
3-member color-1 component pops while the spectator at (0,4) is untouched. -/
theorem cluster_pop_keeps_cells_floating_detaches_witness :
    totalCells (clusterCheck gridC9 0 originC9).1 = totalCells gridC9 ∧
    (clusterCheck gridC9 0 originC9).1.length = gridC9.length ∧
    (∀ k, cellAt (clusterCheck gridC9 0 originC9).1 k =
      Option.map (fun b =>
        if CONFIG.minCluster ≤ (clusterKeys gridC9 originC9).card ∧
          keyOf b ∈ clusterKeys gridC9 originC9
        then { b with removing := true } else b) (cellAt gridC9 k)) ∧
    cells (clusterCheck gridC9 0 originC9).1 =
      (cells gridC9).map (fun b =>
        if CONFIG.minCluster ≤ (clusterKeys gridC9 originC9).card ∧
          keyOf b ∈ clusterKeys gridC9 originC9
        then { b with removing := true } else b) ∧
    (floatingCheck gridC9 0).1 =
      gridC9.map (fun row => row.filter (floatKeep (connectedKeys gridC9))) ∧
    (∀ b ∈ (floatingCheck gridC9 0).2.2, b ∉ cells (floatingCheck gridC9 0).1) :=
  cluster_pop_keeps_cells_floating_detaches gridC9 0 originC9

/-- C5: `pushRow` keeps every prior row, shifted one slot down and one row
height lower, with each bubble's row index bumped by 1; a fresh fully
populated row of `perRow` bubbles sits at index 0 with y equal to the
bubble radius and x advancing by one diameter per column. -/
theorem pushRow_spec {g : Grid} (hcoh : RowCoherent g) (width : ℚ)
    (newColor : Nat → Nat) :
    (pushRow g width newColor).length = g.length + 1 ∧
    (pushRow g width newColor)[0]? =
      some ((List.range (perRow width).toNat).map (fun (c : Nat) =>
        ⟨0, (c : Int), CONFIG.bubbleRadius + (c : ℚ) * CONFIG.bubbleRadius * 2,
          CONFIG.bubbleRadius, newColor c, false⟩)) ∧
    (∀ i, i < g.length →
      (pushRow g width newColor)[i + 1]? =
        some ((g[i]?.getD []).map (fun b =>
          ⟨b.row + 1, b.c, b.x, b.y + rowHeight, b.color, b.removing⟩))) := by
  have hlen : (pushRow g width newColor).length = g.length + 1 := by
    simp [pushRow]
  refine ⟨hlen, ?_, ?_⟩
  · rw [List.getElem?_eq_getElem (by omega)]
    simp only [pushRow, List.getElem_map, List.getElem_range]
    congr 1
    rw [show (List.getD (_ :: _) 0 []) = (List.range (perRow width).toNat).map _ from rfl]
    rw [List.map_map]
    exact List.map_congr_left (fun c _ => rfl)
  · intro i hi
    rw [List.getElem?_eq_getElem (by omega)]
    simp only [pushRow, List.getElem_map, List.getElem_range]
    congr 1
    have hgetD : List.getD
        ((List.range (perRow width).toNat).map (fun (c : Nat) =>
          (⟨0, (c : Int), CONFIG.bubbleRadius + (c : ℚ) * CONFIG.bubbleRadius * 2,
            CONFIG.bubbleRadius, newColor c, false⟩ : Bubble)) ::
          g.map (fun row => row.map (fun b => { b with y := b.y + rowHeight })))
        (i + 1) [] =
        (g.getD i []).map (fun b => { b with y := b.y + rowHeight }) := by
      rw [List.getD_cons_succ]
      exact mapRows_getD _ hi
    rw [hgetD, grid_getD_eq_getElem hi, List.getElem?_eq_getElem hi]
    simp only [Option.getD_some, List.map_map]
    exact List.map_congr_left (fun b hb => by
      have := hcoh i hi b hb
      simp [Function.comp, this])

/-- C5 witness: the row-push specification instantiated on the 2-row grid
`gridC5`. -/
theorem pushRow_spec_witness :
    RowCoherent gridC5 ∧
      ((pushRow gridC5 480 (fun _ => 9)).length = gridC5.length + 1 ∧
        (pushRow gridC5 480 (fun _ => 9))[0]? =
          some ((List.range (perRow 480).toNat).map (fun (c : Nat) =>
            ⟨0, (c : Int), CONFIG.bubbleRadius + (c : ℚ) * CONFIG.bubbleRadius * 2,
              CONFIG.bubbleRadius, 9, false⟩)) ∧
        (∀ i, i < gridC5.length →
          (pushRow gridC5 480 (fun _ => 9))[i + 1]? =
            some ((gridC5[i]?.getD []).map (fun b =>
              ⟨b.row + 1, b.c, b.x, b.y + rowHeight, b.color, b.removing⟩)))) :=
  ⟨by with_unfolding_all decide,
    pushRow_spec (by with_unfolding_all decide) 480 (fun _ => 9)⟩

/-- C6: `neighbors` returns at most 6 bubbles, all occupied cells of rows
inside `[0, rowCount-1]`, never the probe bubble itself, and its members
are exactly the first column matches selected by the parity-dependent
offset table with out-of-range rows silently excluded. -/
theorem neighbors_spec {g : Grid} (hcoh : RowCoherent g) (b : Bubble) :
    (neighbors g b).length ≤ 6 ∧
    (∀ n ∈ neighbors g b,
      n ∈ cells g ∧ n.row < g.length ∧ keyOf n ≠ keyOf b ∧ n ≠ b) ∧
    (∀ n, n ∈ neighbors g b ↔
      b.row < g.length ∧ ∃ d ∈ (if b.row % 2 = 0 then deltasEven else deltasOdd),
        ¬((b.row : Int) + d.1 < 0 ∨ (g.length : Int) ≤ (b.row : Int) + d.1) ∧
        findByCol (g.getD ((b.row : Int) + d.1).toNat []) (b.c + d.2) = some n) := by
  refine ⟨neighbors_length_le b, fun n hn => ?_, fun n => mem_neighbors_iff⟩
  refine ⟨mem_neighbors_mem_cells hn, neighbors_row_lt hcoh hn,
    neighbors_key_ne hcoh hn, ?_⟩
  intro heq
  exact neighbors_key_ne hcoh hn (congrArg keyOf heq)

/-- C6 witness: the neighbor specification instantiated at cell (0,0) of
the 2-row grid `gridC6`. -/
theorem neighbors_spec_witness :
    RowCoherent gridC6 ∧
      ((neighbors gridC6 bubbleC6).length ≤ 6 ∧
        (∀ n ∈ neighbors gridC6 bubbleC6,
          n ∈ cells gridC6 ∧ n.row < gridC6.length ∧ keyOf n ≠ keyOf bubbleC6 ∧
            n ≠ bubbleC6) ∧
        (∀ n, n ∈ neighbors gridC6 bubbleC6 ↔
          bubbleC6.row < gridC6.length ∧
            ∃ d ∈ (if bubbleC6.row % 2 = 0 then deltasEven else deltasOdd),
              ¬((bubbleC6.row : Int) + d.1 < 0 ∨
                (gridC6.length : Int) ≤ (bubbleC6.row : Int) + d.1) ∧
              findByCol (gridC6.getD ((bubbleC6.row : Int) + d.1).toNat [])
                (bubbleC6.c + d.2) = some n)) :=
  ⟨by with_unfolding_all decide,
    neighbors_spec (by with_unfolding_all decide) bubbleC6⟩

theorem stepActiveProj_bounce_deactivates (width height dt : ℚ)
    (collide : ℚ → ℚ → ℚ → ℚ → ℚ × ℚ) (g : Grid) (score : Nat) (p : Projectile)
    (h : CONFIG.maxBounce < (stepActiveProj width height dt collide g score p).1.bounces) :
    (stepActiveProj width height dt collide g score p).1.active = false := by
  revert h
  simp only [stepActiveProj]
  split
  · intro _
    rfl
  · split
    · intro _
      rfl
    · intro h
      dsimp only at h ⊢
      by_cases hfloor : height - 12 < p.y + p.vy * dt
      · rw [if_pos hfloor]
      · rw [if_neg hfloor, if_pos h]

theorem moveProjectiles_active_bounded (width height dt : ℚ)
    (collide : ℚ → ℚ → ℚ → ℚ → ℚ × ℚ) :
    ∀ (ps : List Projectile) (g : Grid) (score : Nat) (q : Projectile),
      q ∈ (moveProjectiles width height dt collide ps g score).1 →
      q.active = true → q.bounces ≤ CONFIG.maxBounce := by
  intro ps
  induction ps with
  | nil =>
    intro g score q hq
    simp [moveProjectiles] at hq
  | cons p rest ih =>
    intro g score q hq hact
    simp only [moveProjectiles] at hq
    by_cases hp : p.active = true
    · rw [if_pos hp] at hq
      rcases List.mem_cons.mp hq with rfl | hq'
      · by_contra hgt
        push_neg at hgt
        have hfalse := stepActiveProj_bounce_deactivates width height dt collide g score p hgt
        rw [hact] at hfalse
        cases hfalse
      · exact ih _ _ q hq' hact
    · rw [if_neg hp] at hq
      rcases List.mem_cons.mp hq with rfl | hq'
      · exact absurd hact hp
      · exact ih _ _ q hq' hact

theorem stepActiveProj_score_mono (width height dt : ℚ)
    (collide : ℚ → ℚ → ℚ → ℚ → ℚ × ℚ) (g : Grid) (score : Nat) (p : Projectile) :
    score ≤ (stepActiveProj width height dt collide g score p).2.2 := by
  simp only [stepActiveProj]
  split
  · exact addBubbleAt_score_mono _ _ _ _ _ _
  · split
    · exact addBubbleAt_score_mono _ _ _ _ _ _
    · exact Nat.le_refl _

theorem moveProjectiles_score_mono (width height dt : ℚ)
    (collide : ℚ → ℚ → ℚ → ℚ → ℚ × ℚ) :
    ∀ (ps : List Projectile) (g : Grid) (score : Nat),
      score ≤ (moveProjectiles width height dt collide ps g score).2.2 := by
  intro ps
  induction ps with
  | nil =>
    intro g score
    exact Nat.le_refl _
  | cons p rest ih =>
    intro g score
    simp only [moveProjectiles]
    by_cases hp : p.active = true
    · rw [if_pos hp]
      exact le_trans (stepActiveProj_score_mono width height dt collide g score p) (ih _ _)
    · rw [if_neg hp]
      exact ih _ _

/-- C4 counterexample: in one 0.1 s frame the projectile of `stateC4`
crosses the left wall (9th bounce, over the limit of 8, so it is
deactivated) and the ceiling, and the ceiling branch still places its
bubble: the grid grows from 1 to 2 cells.  This refutes "no bubble
placement results from that projectile in that frame". -/
theorem bounce_limit_same_frame_placement :
    (stepActiveProj 480 640 (1 / 10) collideOracle stateC4.grid 0 projC4).1.bounces = 9 ∧
    CONFIG.maxBounce < 9 ∧
    (stepActiveProj 480 640 (1 / 10) collideOracle stateC4.grid 0 projC4).1.active = false ∧
    totalCells stateC4.grid = 1 ∧
    totalCells (update 480 640 (1 / 10) collideOracle (fun _ => 0) stateC4).1.grid = 2 ∧
    (update 480 640 (1 / 10) collideOracle (fun _ => 0) stateC4).1.projectiles = [] := by
  with_unfolding_all decide

/-- C4 (amended): a projectile whose bounce counter exceeds `maxBounce`
during a frame is deactivated in that frame, and every projectile that
survives a frame update is active with at most `maxBounce` bounces — so
the offending shot is purged and can never place a bubble in a later
frame.  (In the triggering frame itself a placement can still occur when
the ceiling or a bubble collision also fires; see the counterexample.) -/
theorem bounce_limit_deactivates (width height dt : ℚ)
    (collide : ℚ → ℚ → ℚ → ℚ → ℚ × ℚ) (newColor : Nat → Nat) (s : GameState)
    (g : Grid) (score : Nat) (p : Projectile) :
    (CONFIG.maxBounce < (stepActiveProj width height dt collide g score p).1.bounces →
      (stepActiveProj width height dt collide g score p).1.active = false) ∧
    (∀ q ∈ (update width height dt collide newColor s).1.projectiles,
      q.active = true ∧ q.bounces ≤ CONFIG.maxBounce) := by
  refine ⟨stepActiveProj_bounce_deactivates width height dt collide g score p, ?_⟩
  intro q hq
  have hq' : q ∈ (moveProjectiles width height dt collide s.projectiles s.grid s.score).1 ∧
      q.active = true := by
    simp only [update] at hq
    have := List.mem_filter.mp hq
    exact ⟨this.1, this.2⟩
  exact ⟨hq'.2, moveProjectiles_active_bounded width height dt collide
    s.projectiles s.grid s.score q hq'.1 hq'.2⟩

/-- C4 witness: the deactivation clause instantiated on `projC4`, whose
bounce counter reaches 9 during the frame. -/
theorem bounce_limit_deactivates_witness :
    CONFIG.maxBounce <
        (stepActiveProj 480 640 (1 / 10) collideOracle stateC4.grid 0 projC4).1.bounces ∧
      (stepActiveProj 480 640 (1 / 10) collideOracle stateC4.grid 0 projC4).1.active = false :=
  ⟨by with_unfolding_all decide,
    (bounce_limit_deactivates 480 640 (1 / 10) collideOracle (fun _ => 0) stateC4
      stateC4.grid 0 projC4).1 (by with_unfolding_all decide)⟩

/-- C7: when a frame update finds the grid with zero bubbles (all rows
empty, no projectile in flight able to refill it, no row push due this
frame) in a RUNNING state, the update signals the win exactly once and
sets the terminal flag, leaving grid and score untouched; and the next
`gameLoop` tick on the resulting ENDED state performs no simulation work
at all and raises no further signal, for any frame arguments. -/
theorem win_transition_spec (width height dt : ℚ)
    (collide : ℚ → ℚ → ℚ → ℚ → ℚ × ℚ) (newColor : Nat → Nat) (s : GameState)
    (width' height' dt' : ℚ) (collide' : ℚ → ℚ → ℚ → ℚ → ℚ × ℚ) (newColor' : Nat → Nat)
    (hrun : s.gameOver = false) (hempty : ∀ row ∈ s.grid, row = [])
    (hproj : s.projectiles = [])
    (htimer : s.spawnTimer + dt * 1000 < CONFIG.spawnRowInterval) :
    (update width height dt collide newColor s).2.1 = true ∧
    (update width height dt collide newColor s).2.2 = false ∧
    (update width height dt collide newColor s).1.gameOver = true ∧
    (update width height dt collide newColor s).1.grid = s.grid ∧
    (update width height dt collide newColor s).1.score = s.score ∧
    gameFrame width' height' dt' collide' newColor'
        (update width height dt collide newColor s).1 =
      ((update width height dt collide newColor s).1, false, false) := by
  have hmp : moveProjectiles width height dt collide s.projectiles s.grid s.score =
      ([], s.grid, s.score) := by
    rw [hproj]
    rfl
  have hall : s.grid.all (fun r => r.isEmpty) = true := by
    rw [List.all_eq_true]
    intro r hr
    rw [hempty r hr]
    rfl
  have hnopush : ¬ (CONFIG.spawnRowInterval ≤ s.spawnTimer + dt * 1000) := not_le.mpr htimer
  have hflags : winLoseFlags height s.gameOver s.grid = (true, true, false) := by
    rw [hrun]
    simp [winLoseFlags, hall]
  have hkey : update width height dt collide newColor s =
      ({ s with
          projectiles := []
          spawnTimer := s.spawnTimer + dt * 1000
          gameOver := true
          angle := s.angle + (s.targetAngle - s.angle) * CONFIG.aimDamping }, true, false) := by
    simp only [update, hmp]
    rw [if_neg hnopush]
    dsimp only
    rw [hflags]
    rfl
  rw [hkey]
  refine ⟨rfl, rfl, rfl, rfl, rfl, ?_⟩
  simp [gameFrame]

/-- C7 witness: the win transition fired on the all-empty grid of
`stateC7`, and the following tick is a no-op. -/
theorem win_transition_spec_witness :
    (stateC7.gameOver = false ∧ (∀ row ∈ stateC7.grid, row = []) ∧
      stateC7.projectiles = [] ∧
      stateC7.spawnTimer + (1 / 10) * 1000 < CONFIG.spawnRowInterval) ∧
      ((update 480 640 (1 / 10) collideOracle (fun _ => 0) stateC7).2.1 = true ∧
        (update 480 640 (1 / 10) collideOracle (fun _ => 0) stateC7).2.2 = false ∧
        (update 480 640 (1 / 10) collideOracle (fun _ => 0) stateC7).1.gameOver = true ∧
        (update 480 640 (1 / 10) collideOracle (fun _ => 0) stateC7).1.grid = stateC7.grid ∧
        (update 480 640 (1 / 10) collideOracle (fun _ => 0) stateC7).1.score =
          stateC7.score ∧
        gameFrame 480 640 (1 / 5) collideOracle (fun _ => 1)
            (update 480 640 (1 / 10) collideOracle (fun _ => 0) stateC7).1 =
          ((update 480 640 (1 / 10) collideOracle (fun _ => 0) stateC7).1, false, false)) :=
  ⟨⟨by with_unfolding_all decide, by with_unfolding_all decide, by with_unfolding_all decide,
      by with_unfolding_all decide⟩,
    win_transition_spec 480 640 (1 / 10) collideOracle (fun _ => 0) stateC7
      480 640 (1 / 5) collideOracle (fun _ => 1)
      (by with_unfolding_all decide) (by with_unfolding_all decide)
      (by with_unfolding_all decide) (by with_unfolding_all decide)⟩

/-- C10: within one session the score is monotone: a frame update never
decreases it; a fire command leaves it unchanged; the cluster check adds
exactly 10 points per popped bubble (and nothing below the threshold);
the floating check adds exactly 20 points per dropped bubble; and only
`startGame` resets it to 0. -/
theorem score_monotone_spec (width height dt : ℚ)
    (collide : ℚ → ℚ → ℚ → ℚ → ℚ × ℚ) (newColor : Nat → Nat) (s : GameState)
    (shooterX shooterY dirX dirY : ℚ) (c1 c2 : Nat)
    (g : Grid) (score : Nat) (origin : Bubble)
    (gcolor : Nat → Nat → Nat) (c0 : Nat) :
    s.score ≤ (update width height dt collide newColor s).1.score ∧
    (fireCommand shooterX shooterY dirX dirY c1 c2 s).score = s.score ∧
    (clusterCheck g score origin).2 =
      score + (if CONFIG.minCluster ≤ (clusterKeys g origin).card
        then (clusterKeys g origin).card * 10 else 0) ∧
    (floatingCheck g score).2.1 = score + 20 * (floatingCheck g score).2.2.length ∧
    (startGame width gcolor c0 s).score = 0 := by
  refine ⟨?_, ?_, clusterCheck_score g score origin, floatingCheck_score g score, rfl⟩
  · simp only [update]
    exact moveProjectiles_score_mono width height dt collide s.projectiles s.grid s.score
  · unfold fireCommand
    split
    · rfl
    · rfl

end BubbleShooter
